import Mathlib

/-!
Verification of the generation/streaming/stage-execution core of the
claude-dotfiles medical-diagnosis repository.

The Python sources are shallowly embedded as executable Lean definitions:

* `LLMService._create_word_chunks` (src/backend/app/services/llm_service.py,
  lines 353-409) — word chunker, modelled on `List Char` texts.
* `LLMService.invoke` (same file, lines 159-210) — retry/backoff loop,
  modelled with an explicit time counter and a provider oracle.
* `format_sse_data` / `validate_sse_event` (src/backend/app/utils/sse.py).
* `DiagnosisService` stage executor (src/api/app/services/diagnosis_service.py):
  stage sequences, `get_next_stage`, `get_consolidated_stage`,
  `_save_stage_result`, `_process_backend_stage`, `process_stage`,
  `approve_stage`, modelled over a per-case state record.  The external
  LLM calls made while building prompts are abstracted as oracles giving
  the generated text of each call; database commits are identity.
-/

/-! ### Chunker: `LLMService._create_word_chunks` -/

/-- `StreamChunk` dataclass (content, position, length, is_word_boundary);
the optional metadata field is not touched by the chunker. -/
structure StreamChunk where
  content : List Char
  position : Nat
  length : Nat
  is_word_boundary : Bool
deriving DecidableEq, Repr

/-- Python `text.split(' ')`: split on every single space character,
keeping empty words between consecutive separators. -/
def pySplit (sep : Char) : List Char → List (List Char)
  | [] => [[]]
  | c :: cs =>
    match pySplit sep cs with
    | [] => [[]]
    | w :: ws => if c = sep then [] :: w :: ws else (c :: w) :: ws

/-- ASCII whitespace as recognised by Python's `str.lstrip()`. -/
def isPySpace (c : Char) : Bool :=
  c == ' ' || c == '\t' || c == '\n' || c == '\r' || c == Char.ofNat 11 || c == Char.ofNat 12

/-- Python `s.lstrip()`. -/
def lstrip (l : List Char) : List Char := l.dropWhile isPySpace

/-- Python `s.endswith(' ') or s.endswith('\n')`. -/
def endsWithSpaceOrNewline (l : List Char) : Bool :=
  match l.getLast? with
  | some c => c == ' ' || c == '\n'
  | none => false

/-- Build one emitted chunk, as in the two `chunks.append(StreamChunk(...))`
sites: length is always `len(content)`. -/
def mkChunk (content : List Char) (pos : Nat) (b : Bool) : StreamChunk :=
  ⟨content, pos, content.length, b⟩

/-- The `for i, word in enumerate(words)` loop of `_create_word_chunks`.
`first` is `i == 0`; state is (chunks, position, current_chunk). -/
def chunkLoop (max_size : Nat) :
    List (List Char) → Bool → List StreamChunk → Nat → List Char →
    List StreamChunk × Nat × List Char
  | [], _, chunks, pos, cur => (chunks, pos, cur)
  | w :: ws, first, chunks, pos, cur =>
    let word_with_space := if first then w else ' ' :: w
    if (cur ++ word_with_space).length > max_size ∧ cur ≠ [] then
      chunkLoop max_size ws false
        (chunks ++ [mkChunk cur pos (endsWithSpaceOrNewline cur)])
        (pos + cur.length) (lstrip word_with_space)
    else
      chunkLoop max_size ws false chunks pos (cur ++ word_with_space)

/-- The loop of `_create_word_chunks` run from the initial state. -/
def chunkCore (text : List Char) (max_size start_position : Nat) :
    List StreamChunk × Nat × List Char :=
  chunkLoop max_size (pySplit ' ' text) true [] start_position []

/-- `LLMService._create_word_chunks(text, max_size, start_position)`. -/
def _create_word_chunks (text : List Char) (max_size : Nat)
    (start_position : Nat := 0) : List StreamChunk :=
  if text = [] then []
  else
    match chunkCore text max_size start_position with
    | (chunks, pos, cur) =>
      if cur ≠ [] then chunks ++ [mkChunk cur pos true] else chunks

/-! ### Generation client: `LLMService.invoke` -/

/-- Settings fields read by `invoke` (core/config.py: `LLM_MAX_RETRIES`
defaults to 2, `LLM_TIMEOUT` defaults to 120). -/
structure Settings where
  LLM_MAX_RETRIES : Nat
  LLM_TIMEOUT : Nat
deriving DecidableEq, Repr

/-- One provider call outcome: a response object with a `content`
attribute, a response object without one, or a raised exception. -/
inductive ProviderResponse where
  | content (s : String)
  | noContent
  | exn (msg : String)
deriving DecidableEq, Repr

/-- Return value of `invoke` (the Python function returns strings in all
cases; the constructors tag which `return` statement produced it, with
`noReturn` for the unreachable fall-through returning `None`). -/
inductive InvokeResult where
  | ok (s : String)
  | formatError
  | timeoutError (timeout : Nat)
  | exhaustedError (attempts : Nat) (msg : String)
  | noReturn
deriving DecidableEq, Repr

/-- Observable behaviour of one `invoke` call: its result, how many
provider calls were made, the backoff sleeps in order, and the final
value of `time.time() - start_time`. -/
structure InvokeTrace where
  result : InvokeResult
  attempts : Nat
  sleeps : List Nat
  elapsed : Nat
deriving DecidableEq, Repr

/-- The `for attempt in range(max_retries + 1)` loop of `invoke`.
`llm prompt attempt` is the provider's behaviour on that attempt and
`dur attempt` the wall-clock time that provider call takes; `elapsed`
tracks `time.time() - start_time`. -/
def invokeLoop (llm : String → Nat → ProviderResponse) (dur : Nat → Nat)
    (prompt : String) (timeout max_retries : Nat) :
    List Nat → Nat → Nat → List Nat → InvokeTrace
  | [], elapsed, calls, sleeps => ⟨.noReturn, calls, sleeps, elapsed⟩
  | attempt :: rest, elapsed, calls, sleeps =>
    if elapsed > timeout then
      ⟨.timeoutError timeout, calls, sleeps, elapsed⟩
    else
      let elapsed' := elapsed + dur attempt
      match llm prompt attempt with
      | .content s => ⟨.ok s, calls + 1, sleeps, elapsed'⟩
      | .noContent => ⟨.formatError, calls + 1, sleeps, elapsed'⟩
      | .exn msg =>
        if attempt = max_retries then
          ⟨.exhaustedError (max_retries + 1) msg, calls + 1, sleeps, elapsed'⟩
        else
          invokeLoop llm dur prompt timeout max_retries rest
            (elapsed' + 2 ^ attempt) (calls + 1) (sleeps ++ [2 ^ attempt])

/-- `LLMService.invoke(prompt, max_retries=2, timeout=60)`: the first two
statements overwrite both parameters with the configured settings values,
so the passed arguments are dead. -/
def invoke (llm : String → Nat → ProviderResponse) (dur : Nat → Nat)
    (settings : Settings) (prompt : String)
    (max_retries : Nat := 2) (timeout : Nat := 60) : InvokeTrace :=
  let max_retries := settings.LLM_MAX_RETRIES
  let timeout := settings.LLM_TIMEOUT
  invokeLoop llm dur prompt timeout max_retries
    (List.range (max_retries + 1)) 0 0 []

/-- Elapsed time at the top of attempt `k` when every attempt fails:
the durations of attempts `0..k-1` plus the backoff sleeps `2^0..2^(k-1)`. -/
def preAttemptElapsed (dur : Nat → Nat) (k : Nat) : Nat :=
  (List.range k).foldl (fun acc i => acc + dur i + 2 ^ i) 0

/-! ### Event encoder: `format_sse_data` / `validate_sse_event` (utils/sse.py)

Texts are `List Char`; the JSON payload type is abstract, with
`ser` standing for `json.dumps` (`none` = raises `TypeError`/`ValueError`). -/

/-- `SSEEvent` dataclass: event_type, data, optional id, optional retry. -/
structure SSEEvent (α : Type) where
  event_type : List Char
  data : α
  id : Option (List Char)
  retry : Option Int

/-- The `SSEEventType` constants checked by `validate_sse_event`. -/
def valid_types : List (List Char) :=
  ["chunk".toList, "start".toList, "end".toList, "error".toList,
   "metadata".toList, "heartbeat".toList, "progress".toList,
   "stage_complete".toList]

/-- The `lines` list built by `format_sse_data`, before `"\n".join`:
event-type line; id line when `event.id` is truthy (non-`None` and
non-empty); retry line when `event.retry is not None`; the data line when
`json.dumps` succeeds (`none` models the raised `SSEError`); then the two
appended empty strings. -/
def sse_lines {α : Type} (ser : α → Option (List Char)) (e : SSEEvent α) :
    Option (List (List Char)) :=
  let l1 := ["event: ".toList ++ e.event_type]
  let l2 := l1 ++ (match e.id with
    | some i => if i = [] then [] else ["id: ".toList ++ i]
    | none => [])
  let l3 := l2 ++ (match e.retry with
    | some r => ["retry: ".toList ++ (toString r).toList]
    | none => [])
  match ser e.data with
  | none => none
  | some dj => some (l3 ++ ["data: ".toList ++ dj] ++ [[], []])

/-- `format_sse_data`: `"\n".join(lines)`, or the raised `SSEError`
(`none`) when the payload does not serialize. -/
def format_sse_data {α : Type} (ser : α → Option (List Char))
    (e : SSEEvent α) : Option (List Char) :=
  (sse_lines ser e).map (fun ls => (ls.intersperse ('\n' :: [])).flatten)

/-- `validate_sse_event`: event type among the known tags and payload
serializable (the 50KB size check only logs and never fails). -/
def validate_sse_event {α : Type} (ser : α → Option (List Char))
    (e : SSEEvent α) : Bool :=
  valid_types.contains e.event_type && (ser e.data).isSome

/-! ### Stage executor: `DiagnosisService` (api/app/services/diagnosis_service.py)

One case is modelled; the database session is the case's row plus its
`StageResult` rows, passed functionally.  The LLM calls are abstracted by
an environment giving the generated text of each call: `gen stage` for the
per-stage `generate`/`generate_with_history` call and `summary group` for
the consolidated summary generators. -/

/-- The consolidated stage sequence (`self.stage_sequence`). -/
def stage_sequence : List String :=
  ["patient_case_analysis_group", "diagnosis_group", "treatment_planning_group"]

/-- The backend stage sequence (`self.backend_stage_sequence`). -/
def backend_stage_sequence : List String :=
  ["initial", "extraction", "causal_analysis", "validation", "counterfactual",
   "diagnosis", "treatment_planning", "patient_specific", "final_plan"]

/-- `self.backend_stage_mapping`. -/
def backend_stage_mapping : List (String × List String) :=
  [("patient_case_analysis_group", ["initial", "extraction", "causal_analysis", "validation"]),
   ("diagnosis_group", ["counterfactual", "diagnosis"]),
   ("treatment_planning_group", ["treatment_planning", "patient_specific", "final_plan"])]

/-- Python `seq.index(s)` as an option (`none` = `ValueError`). -/
def listIndex (s : String) : List String → Option Nat
  | [] => none
  | x :: xs => if x = s then some 0 else (listIndex s xs).map (· + 1)

/-- The successor lookup used by both branches of `get_next_stage`:
`seq[seq.index(s) + 1]` when `index < len(seq) - 1`, otherwise fall
through to returning `s` itself (also on `ValueError`). -/
def seqNext (seq : List String) (s : String) : String :=
  match listIndex s seq with
  | some i => if i < seq.length - 1 then seq.getD (i + 1) s else s
  | none => s

/-- `DiagnosisService.get_next_stage`. -/
def get_next_stage (current_stage : String) : String :=
  if current_stage ∈ stage_sequence then seqNext stage_sequence current_stage
  else seqNext backend_stage_sequence current_stage

/-- `DiagnosisService.get_consolidated_stage`: first mapping entry whose
backend list contains the stage, else the stage itself. -/
def get_consolidated_stage (backend_stage : String) : String :=
  match backend_stage_mapping.find? (fun p => p.2.contains backend_stage) with
  | some p => p.1
  | none => backend_stage

/-- A backend stage's result dict: either the normal payload (its content
field, the `ready` flag only the validation stage sets, and `next_stage`)
or the `{'error': ...}` dict of the unknown-stage branch. -/
inductive BackendResult where
  | ok (text : String) (ready : Option Bool) (next_stage : String)
  | err (msg : String)
deriving DecidableEq, Repr

/-- A persisted `StageResult.result` payload: a backend stage dict, or a
consolidated dict `{'backend_results': ..., 'summary': ..., 'next_stage': ...}`. -/
inductive StagePayload where
  | backend (r : BackendResult)
  | consolidated (backend_results : List (String × BackendResult))
      (summary : String) (next_stage : String)
deriving DecidableEq, Repr

/-- A `StageResult` row: payload plus `is_approved` (column default False). -/
structure StageRow where
  result : StagePayload
  is_approved : Bool
deriving DecidableEq, Repr

/-- The case row and its stage results. -/
structure DiagState where
  current_stage : String
  is_complete : Bool
  results : List (String × StageRow)
deriving DecidableEq, Repr

/-- The texts produced by the external LLM on each call. -/
structure LLMEnv where
  gen : String → String
  summary : String → String

/-- The fixed affirmative marker tested by the validation stage
(`"✅ Yes" in response`). -/
def hasAffirmativeMarker (response : String) : Bool :=
  decide (("✅ Yes".toList) <:+: response.toList)

/-- `DiagnosisService._save_stage_result`: update the existing row's
`result` (keeping `is_approved`), or add a fresh row. -/
def _save_stage_result (rows : List (String × StageRow)) (stage_name : String)
    (result : StagePayload) : List (String × StageRow) :=
  if rows.any (fun p => p.1 = stage_name) then
    rows.map (fun p => if p.1 = stage_name then (p.1, { p.2 with result := result }) else p)
  else
    rows ++ [(stage_name, ⟨result, false⟩)]

/-- `DiagnosisService.get_stage_result`: the stored payload, if any. -/
def get_stage_result (rows : List (String × StageRow)) (stage_name : String) :
    Option StagePayload :=
  (rows.lookup stage_name).map (·.result)

/-- `DiagnosisService._process_backend_stage`: dispatch on the stage name,
build the stage's result dict (the generated text abstracted as
`env.gen stage_name`), and upsert it — except for the unknown-stage
branch, which returns the error dict without saving. -/
def _process_backend_stage (env : LLMEnv) (case_text : String)
    (input_text : Option String) (rows : List (String × StageRow))
    (stage_name : String) : BackendResult × List (String × StageRow) :=
  let found : Option BackendResult :=
    if stage_name = "initial" then
      some (.ok (input_text.getD case_text) none "extraction")
    else if stage_name = "extraction" then
      some (.ok (env.gen "extraction") none "causal_analysis")
    else if stage_name = "causal_analysis" then
      some (.ok (env.gen "causal_analysis") none "validation")
    else if stage_name = "validation" then
      let response := env.gen "validation"
      let ready_to_proceed := hasAffirmativeMarker response
      some (.ok response (some ready_to_proceed)
        (if ready_to_proceed then "counterfactual" else "validation"))
    else if stage_name = "counterfactual" then
      some (.ok (env.gen "counterfactual") none "diagnosis")
    else if stage_name = "diagnosis" then
      some (.ok (env.gen "diagnosis") none "treatment_planning")
    else if stage_name = "treatment_planning" then
      some (.ok (env.gen "treatment_planning") none "patient_specific")
    else if stage_name = "patient_specific" then
      some (.ok (env.gen "patient_specific") none "final_plan")
    else if stage_name = "final_plan" then
      some (.ok (env.gen "final_plan") none "complete")
    else none
  match found with
  | some r => (r, _save_stage_result rows stage_name (.backend r))
  | none => (.err ("Unknown stage: " ++ stage_name), rows)

/-- Python dict update `d[k] = v` on an association list. -/
def upsertAssoc {β : Type} (l : List (String × β)) (k : String) (v : β) :
    List (String × β) :=
  if l.any (fun p => p.1 = k) then
    l.map (fun p => if p.1 = k then (p.1, v) else p)
  else l ++ [(k, v)]

/-- The consolidated-dict refresh inside `process_stage`'s backend branch:
take the stored consolidated dict (or `{}`), set
`backend_results[stage_name]`, regenerate `summary`, and set `next_stage`
to the consolidated stage's static successor. -/
def updateConsolidated (env : LLMEnv) (rows : List (String × StageRow))
    (consolidated_stage stage_name : String) (r : BackendResult) : StagePayload :=
  let prev : List (String × BackendResult) :=
    match get_stage_result rows consolidated_stage with
    | some (.consolidated brs _ _) => brs
    | _ => []
  .consolidated (upsertAssoc prev stage_name r) (env.summary consolidated_stage)
    (get_next_stage consolidated_stage)

/-- `DiagnosisService.process_stage(case_id, stage_name, input_text)` for
an existing case: the returned result dict and the state after commit.
The three consolidated branches run their backend stages in order and
hard-code their `next_stage`; only `treatment_planning_group` marks the
case complete.  The chat history and `processing_time` bookkeeping do not
affect the modelled fields. -/
def process_stage (env : LLMEnv) (case_text : String) (st : DiagState)
    (stage_name : String) (input_text : Option String) :
    StagePayload × DiagState :=
  if stage_name ∈ stage_sequence then
    if stage_name = "patient_case_analysis_group" then
      let p1 := _process_backend_stage env case_text input_text st.results "initial"
      let p2 := _process_backend_stage env case_text input_text p1.2 "extraction"
      let p3 := _process_backend_stage env case_text none p2.2 "causal_analysis"
      let p4 := _process_backend_stage env case_text none p3.2 "validation"
      let result := StagePayload.consolidated
        [("initial", p1.1), ("extraction", p2.1),
         ("causal_analysis", p3.1), ("validation", p4.1)]
        (env.summary "patient_case_analysis_group") "diagnosis"
      (result, { st with results := _save_stage_result p4.2 stage_name result,
                         current_stage := stage_name })
    else if stage_name = "diagnosis_group" then
      let p1 := _process_backend_stage env case_text none st.results "counterfactual"
      let p2 := _process_backend_stage env case_text input_text p1.2 "diagnosis"
      let result := StagePayload.consolidated
        [("counterfactual", p1.1), ("diagnosis", p2.1)]
        (env.summary "diagnosis_group") "treatment_planning"
      (result, { st with results := _save_stage_result p2.2 stage_name result,
                         current_stage := stage_name })
    else
      let p1 := _process_backend_stage env case_text none st.results "treatment_planning"
      let p2 := _process_backend_stage env case_text input_text p1.2 "patient_specific"
      let p3 := _process_backend_stage env case_text none p2.2 "final_plan"
      let result := StagePayload.consolidated
        [("treatment_planning", p1.1), ("patient_specific", p2.1), ("final_plan", p3.1)]
        (env.summary "treatment_planning_group") "complete"
      (result, { st with results := _save_stage_result p3.2 stage_name result,
                         current_stage := stage_name,
                         is_complete := true })
  else
    let p := _process_backend_stage env case_text input_text st.results stage_name
    let consolidated_stage := get_consolidated_stage stage_name
    let rows1 :=
      if consolidated_stage ≠ stage_name then
        _save_stage_result p.2 consolidated_stage
          (updateConsolidated env p.2 consolidated_stage stage_name p.1)
      else p.2
    (.backend p.1,
     { st with results := _save_stage_result rows1 stage_name (.backend p.1),
               current_stage := stage_name })

/-- Return value of `approve_stage`. -/
inductive ApproveOutcome where
  | ok (stage_name : String) (next_stage : String)
  | err (msg : String)
deriving DecidableEq, Repr

/-- `DiagnosisService.approve_stage(case_id, stage_name)` for an existing
case: error without mutation when no `StageResult` row exists; otherwise
mark the row approved and set `current_stage` to the stage's static
successor, unconditionally. -/
def approve_stage (st : DiagState) (stage_name : String) :
    ApproveOutcome × DiagState :=
  match st.results.lookup stage_name with
  | none => (.err ("Stage result not found: " ++ stage_name), st)
  | some _ =>
    let rows := st.results.map
      (fun p => if p.1 = stage_name then (p.1, { p.2 with is_approved := true }) else p)
    let next_stage := get_next_stage stage_name
    (.ok stage_name next_stage,
     { st with results := rows, current_stage := next_stage })

/-- The `next_stage` pointer of a result dict, when present. -/
def payloadNextStage : StagePayload → Option String
  | .backend (.ok _ _ n) => some n
  | .backend (.err _) => none
  | .consolidated _ _ n => some n

/-! ### Auxiliary notions used only to state claims -/

/-- The boundary after the first `k` characters of `text` falls in the
middle of a word when characters `k-1` and `k` are both non-whitespace:
a chunk whose content is `text.take k` would then end mid-word. -/
def endsMidWordAt (text : List Char) (k : Nat) : Bool :=
  decide (0 < k) && decide (k < text.length)
    && !(isPySpace (text.getD (k - 1) ' ')) && !(isPySpace (text.getD k ' '))

/-- Time consumed by `invoke`'s failing attempts `a..k-1`: each attempt's
provider-call duration plus its backoff sleep. -/
def costBetween (dur : Nat → Nat) (a k : Nat) : Nat :=
  ((List.range' a (k - a)).map (fun i => dur i + 2 ^ i)).sum

/-! ## Theorems -/

/-- C1. The round-trip claim fails on the code: chunking `"ab cd"` with
`max_size = 3` yields contents `"ab"` and `"cd"`, whose concatenation is
`"abcd"`, not the input — the `lstrip()` at the split point drops the
separating space.  The repository's own tests
(`test_create_word_chunks_basic`, `test_create_word_chunks_medical_terminology`
in tests/unit/services/test_llm_streaming_isolated.py) assert exact
reproduction, so the code contradicts its own test suite here. -/
theorem C1_roundtrip_fails_on_split :
    ((_create_word_chunks ("ab cd".toList) 3 0).map StreamChunk.content).flatten
      = "abcd".toList
    ∧ "abcd".toList ≠ "ab cd".toList := by decide

/-- C8 counterexample. Chunking `"Patient is stable"` with `max_size = 100`
yields one chunk of length 17, not 18 as the claim states: the input
string has 17 characters. -/
theorem C8_counterexample :
    (_create_word_chunks ("Patient is stable".toList) 100 0).map StreamChunk.length
      = [17]
    ∧ (17 : Nat) ≠ 18 := by decide

/-- C8 amended. Chunking `"Patient is stable"` with `max_size = 100` and
running offset 0 yields exactly one chunk equal to the full input, with
`is_word_boundary = true`, `position = 0` and `length = 17`. -/
theorem C8_happy_path :
    _create_word_chunks ("Patient is stable".toList) 100 0
      = [⟨"Patient is stable".toList, 0, 17, true⟩] := by decide

/-- C9 counterexample. On `"ab cd"` with `max_size = 3` the first emitted
chunk is the text prefix `"ab"`; the boundary after it (offset 2, followed
by a space) is not in the middle of a word, yet the chunk carries
`is_word_boundary = false` — refuting "true iff the content does not end
mid-word". -/
theorem C9_counterexample :
    (_create_word_chunks ("ab cd".toList) 3 0).map (fun c => (c.content, c.is_word_boundary))
      = [("ab".toList, false), ("cd".toList, true)]
    ∧ "ab cd".toList = "ab".toList ++ ' ' :: "cd".toList
    ∧ endsMidWordAt ("ab cd".toList) 2 = false := by decide

/-- C10. The `max_retries` and `timeout` parameters of `invoke` are dead:
the call behaves identically for any argument values, and its behaviour is
exactly the loop run with the configured settings values
(`LLM_MAX_RETRIES`, `LLM_TIMEOUT`). -/
theorem C10_invoke_ignores_args (llm : String → Nat → ProviderResponse)
    (dur : Nat → Nat) (S : Settings) (prompt : String) (a b c d : Nat) :
    invoke llm dur S prompt a b = invoke llm dur S prompt c d
    ∧ invoke llm dur S prompt a b
      = invokeLoop llm dur prompt S.LLM_TIMEOUT S.LLM_MAX_RETRIES
          (List.range (S.LLM_MAX_RETRIES + 1)) 0 0 [] :=
  ⟨rfl, rfl⟩

/-- C2 counterexample. With `LLM_MAX_RETRIES = 1`, `LLM_TIMEOUT = 1`, a
permanently failing provider whose every call takes 2 time units: only 1
provider attempt occurs instead of `max_retries + 1 = 2`, and the total
elapsed time is 3, exceeding the configured timeout 1 — refuting both the
exact attempt count and the elapsed-time bound. -/
theorem C2_counterexample :
    invoke (fun _ _ => .exn "boom") (fun _ => 2) ⟨1, 1⟩ "p"
      = ⟨.timeoutError 1, 1, [1], 3⟩
    ∧ (1 : Nat) ≠ 1 + 1
    ∧ ¬ (3 ≤ 1) := by decide

/-- C3. Processing the validation stage returns the generated text with a
`ready` flag that is true exactly when the text contains the affirmative
marker `"✅ Yes"`; when not ready the result's next stage is
`"validation"` itself, when ready it is `"counterfactual"`, which is also
the static successor of `"validation"` in the backend sequence. -/
theorem C3_validation_ready (env : LLMEnv) (case_text : String)
    (input_text : Option String) (rows : List (String × StageRow)) :
    (_process_backend_stage env case_text input_text rows "validation").1
      = BackendResult.ok (env.gen "validation")
          (some (hasAffirmativeMarker (env.gen "validation")))
          (if hasAffirmativeMarker (env.gen "validation") then "counterfactual"
           else "validation")
    ∧ (hasAffirmativeMarker (env.gen "validation") = true ↔
        ("✅ Yes".toList) <:+: (env.gen "validation").toList)
    ∧ get_next_stage "validation" = "counterfactual" :=
  ⟨rfl, by simp [hasAffirmativeMarker], by decide⟩

/-- C4 counterexample. Processing the unknown stage `"bogus"` on a fresh
case does surface the error dict, but it also upserts a `StageResult` row
for `"bogus"` holding that error payload and sets `current_stage` to
`"bogus"` — refuting "mutates no state". -/
theorem C4_counterexample :
    (process_stage ⟨fun _ => "", fun _ => ""⟩ "" ⟨"initial", false, []⟩ "bogus" none).1
      = .backend (.err "Unknown stage: bogus")
    ∧ (process_stage ⟨fun _ => "", fun _ => ""⟩ "" ⟨"initial", false, []⟩ "bogus" none).2.results
      = [("bogus", ⟨.backend (.err "Unknown stage: bogus"), false⟩)]
    ∧ (process_stage ⟨fun _ => "", fun _ => ""⟩ "" ⟨"initial", false, []⟩ "bogus" none).2.current_stage
      = "bogus"
    ∧ "bogus" ≠ "initial"
    ∧ ([("bogus", (⟨.backend (.err "Unknown stage: bogus"), false⟩ : StageRow))]
        : List (String × StageRow)) ≠ [] := by
  decide

/-- C4 amended. For every stage name that is neither a backend stage nor a
consolidated stage, `process_stage` surfaces the unknown-stage error dict
to the caller; however, it still upserts a `StageResult` for that name
holding the error payload and sets the case's `current_stage` to it
(the completion flag stays unchanged). -/
theorem C4_amended (env : LLMEnv) (case_text : String) (input_text : Option String)
    (st : DiagState) (stage_name : String)
    (h1 : stage_name ∉ stage_sequence) (h2 : stage_name ∉ backend_stage_sequence) :
    (process_stage env case_text st stage_name input_text).1
      = .backend (.err ("Unknown stage: " ++ stage_name))
    ∧ (process_stage env case_text st stage_name input_text).2
      = { st with
          results := _save_stage_result st.results stage_name
            (.backend (.err ("Unknown stage: " ++ stage_name))),
          current_stage := stage_name } := by
  simp only [backend_stage_sequence, List.mem_cons, List.not_mem_nil, or_false] at h2
  push_neg at h2
  obtain ⟨n1, n2, n3, n4, n5, n6, n7, n8, n9⟩ := h2
  have hc : get_consolidated_stage stage_name = stage_name := by
    simp [get_consolidated_stage, backend_stage_mapping, List.find?, List.contains,
      n1, n2, n3, n4, n5, n6, n7, n8, n9]
  have hp : _process_backend_stage env case_text input_text st.results stage_name
      = (.err ("Unknown stage: " ++ stage_name), st.results) := by
    simp [_process_backend_stage, n1, n2, n3, n4, n5, n6, n7, n8, n9]
  constructor
  · simp [process_stage, h1, hp, hc]
  · simp [process_stage, h1, hp, hc]

/-- C4 witness: the amended theorem applied to the unknown stage
`"mystery"` on a fresh case. -/
theorem C4_amended_witness :
    (process_stage ⟨fun _ => "", fun _ => ""⟩ "ct" ⟨"initial", false, []⟩ "mystery" none).2
      = { current_stage := "mystery", is_complete := false,
          results := _save_stage_result [] "mystery"
            (.backend (.err ("Unknown stage: " ++ "mystery"))) } :=
  (C4_amended ⟨fun _ => "", fun _ => ""⟩ "ct" none ⟨"initial", false, []⟩ "mystery"
    (by decide) (by decide)).2

/-- C5 counterexample. With `current_stage = "final_plan"`, approving the
already-processed `"initial"` stage moves `current_stage` back to
`"extraction"` (index 1), strictly earlier than `"final_plan"` (index 8) —
refuting "never to an earlier stage relative to its value before the
call". -/
theorem C5_counterexample :
    (approve_stage
        ⟨"final_plan", false, [("initial", ⟨.backend (.ok "t" none "extraction"), false⟩)]⟩
        "initial").2.current_stage = "extraction"
    ∧ listIndex "extraction" backend_stage_sequence = some 1
    ∧ listIndex "final_plan" backend_stage_sequence = some 8
    ∧ (1 : Nat) < 8 := by decide

/-- C5 amended. `approve_stage` on an existing `StageResult` marks it
approved and sets `current_stage` unconditionally to the approved stage's
static successor — one step forward from the *approved* stage (never
skipping, final stages of both sequences mapping to themselves), but
computed without consulting the case's previous `current_stage`, so the
case may move backward relative to that previous value. -/
theorem C5_amended (st : DiagState) (stage_name : String) (row : StageRow)
    (h : st.results.lookup stage_name = some row) :
    (approve_stage st stage_name).1 = .ok stage_name (get_next_stage stage_name)
    ∧ (approve_stage st stage_name).2.current_stage = get_next_stage stage_name
    ∧ (∀ p ∈ (approve_stage st stage_name).2.results, p.1 = stage_name → p.2.is_approved = true)
    ∧ (approve_stage st stage_name).2.is_complete = st.is_complete
    ∧ (∀ j, j < 8 → get_next_stage (backend_stage_sequence.getD j "")
        = backend_stage_sequence.getD (j + 1) "")
    ∧ (∀ j, j < 2 → get_next_stage (stage_sequence.getD j "")
        = stage_sequence.getD (j + 1) "")
    ∧ get_next_stage "final_plan" = "final_plan"
    ∧ get_next_stage "treatment_planning_group" = "treatment_planning_group" := by
  refine ⟨?_, ?_, ?_, ?_, by decide, by decide, by decide, by decide⟩
  · simp [approve_stage, h]
  · simp [approve_stage, h]
  · intro p hp hname
    simp only [approve_stage, h] at hp
    simp only [List.mem_map] at hp
    obtain ⟨q, hq, rfl⟩ := hp
    by_cases hq1 : q.1 = stage_name
    · simp [hq1]
    · simp only [if_neg hq1] at hname ⊢
      exact absurd hname hq1
  · simp [approve_stage, h]

/-- C5 witness: the amended theorem applied to approving `"initial"` on a
case holding an `"initial"` result. -/
theorem C5_amended_witness :
    (approve_stage ⟨"initial", false, [("initial", ⟨.backend (.ok "t" none "extraction"), false⟩)]⟩
        "initial").2.current_stage = get_next_stage "initial" :=
  (C5_amended ⟨"initial", false, [("initial", ⟨.backend (.ok "t" none "extraction"), false⟩)]⟩
    "initial" ⟨.backend (.ok "t" none "extraction"), false⟩ (by decide)).2.1

/-- C6 counterexample. Processing the final backend stage `"final_plan"`
produces a result whose `next_stage` pointer is `"complete"` — the
workflow moving past the last backend stage — yet the case's completion
flag remains false, refuting "any operation that advances past the final
stage of either sequence sets the completion flag". -/
theorem C6_counterexample :
    payloadNextStage
        (process_stage ⟨fun _ => "", fun _ => ""⟩ "" ⟨"initial", false, []⟩ "final_plan" none).1
      = some "complete"
    ∧ (process_stage ⟨fun _ => "", fun _ => ""⟩ "" ⟨"initial", false, []⟩ "final_plan" none).2.is_complete
      = false := by decide

/-- C6 amended. Only processing the final *consolidated* stage
(`treatment_planning_group`) sets the completion flag; the flag is
one-way: neither `process_stage` (for any stage name) nor `approve_stage`
ever clears it, and `approve_stage` never changes it at all. -/
theorem C6_amended :
    (∀ (env : LLMEnv) (case_text : String) (input_text : Option String) (st : DiagState),
      (process_stage env case_text st "treatment_planning_group" input_text).2.is_complete = true)
    ∧ (∀ (env : LLMEnv) (case_text : String) (input_text : Option String)
        (st : DiagState) (stage_name : String), st.is_complete = true →
      (process_stage env case_text st stage_name input_text).2.is_complete = true)
    ∧ (∀ (st : DiagState) (stage_name : String),
      (approve_stage st stage_name).2.is_complete = st.is_complete) := by
  refine ⟨?_, ?_, ?_⟩
  · intro env case_text input_text st
    simp [process_stage, stage_sequence]
  · intro env case_text input_text st stage_name h
    simp only [process_stage]
    split_ifs <;> simp [h]
  · intro st stage_name
    cases hl : st.results.lookup stage_name <;> simp [approve_stage, hl]

/-- C6 witness: once set, processing another stage keeps the flag. -/
theorem C6_amended_witness :
    (process_stage ⟨fun _ => "", fun _ => ""⟩ "" ⟨"x", true, []⟩ "initial" none).2.is_complete
      = true :=
  C6_amended.2.1 ⟨fun _ => "", fun _ => ""⟩ "" none ⟨"x", true, []⟩ "initial" rfl

/-- C7. For every valid event whose payload serializes to `dj`, the
encoder's line list is exactly: the event-type line, then an id line when
a non-empty id is present (Python's `if event.id:` truthiness — a `None`
or empty id produces no line), then a retry line when a retry hint is
present, then exactly one data line carrying `dj` (no other line starts
with `data: `), then the two empty strings whose join produces the
required trailing blank line; the wire text is the newline-join of these
lines. -/
theorem C7_sse_format {α : Type} (ser : α → Option (List Char)) (e : SSEEvent α)
    (h : validate_sse_event ser e = true) :
    ∃ dj ls, ser e.data = some dj
      ∧ sse_lines ser e = some ls
      ∧ ls = ["event: ".toList ++ e.event_type]
          ++ (match e.id with
              | some i => if i = [] then [] else ["id: ".toList ++ i]
              | none => [])
          ++ (match e.retry with
              | some r => ["retry: ".toList ++ (toString r).toList]
              | none => [])
          ++ ["data: ".toList ++ dj, [], []]
      ∧ ls.countP (fun l => ("data: ".toList).isPrefixOf l) = 1
      ∧ format_sse_data ser e = some ((ls.intersperse ('\n' :: [])).flatten) := by
  simp only [validate_sse_event, Bool.and_eq_true, Option.isSome_iff_exists] at h
  obtain ⟨-, dj, hdj⟩ := h
  refine ⟨dj, _, hdj, ?_, rfl, ?_, ?_⟩
  · simp [sse_lines, hdj]
  · simp only [List.countP_append, List.countP_cons, List.countP_nil]
    have h1 : ∀ t : List Char, ("data: ".toList).isPrefixOf ("event: ".toList ++ t) = false := by
      intro t; simp [List.isPrefixOf]
    have h2 : ∀ t : List Char, ("data: ".toList).isPrefixOf ("id: ".toList ++ t) = false := by
      intro t; simp [List.isPrefixOf]
    have h3 : ∀ t : List Char, ("data: ".toList).isPrefixOf ("retry: ".toList ++ t) = false := by
      intro t; simp [List.isPrefixOf]
    have h4 : ∀ t : List Char, ("data: ".toList).isPrefixOf ("data: ".toList ++ t) = true := by
      intro t; simp [List.isPrefixOf]
    have h5 : ("data: ".toList).isPrefixOf ([] : List Char) = false := by decide
    cases e.id with
    | none =>
      cases e.retry with
      | none => simp [h1, h4, h5]
      | some r => simp [h1, h3, h4, h5]
    | some i =>
      cases e.retry with
      | none =>
        by_cases hi : i = [] <;> simp [hi, h1, h2, h4, h5]
      | some r =>
        by_cases hi : i = [] <;> simp [hi, h1, h2, h3, h4, h5]
  · simp [format_sse_data, sse_lines, hdj]

/-- C7 witness: the encoding theorem applied to a concrete chunk event
with id `"abc"`, retry hint 5 and payload serializing to `null`. -/
theorem C7_sse_format_witness :
    ∃ dj ls,
      (fun _ : Unit => some ("null".toList)) () = some dj
      ∧ sse_lines (fun _ : Unit => some ("null".toList))
          (⟨"chunk".toList, (), some ("abc".toList), some 5⟩ : SSEEvent Unit) = some ls
      ∧ ls = ["event: ".toList ++ "chunk".toList]
          ++ (match (some ("abc".toList) : Option (List Char)) with
              | some i => if i = [] then [] else ["id: ".toList ++ i]
              | none => [])
          ++ (match (some 5 : Option Int) with
              | some r => ["retry: ".toList ++ (toString r).toList]
              | none => [])
          ++ ["data: ".toList ++ dj, [], []]
      ∧ ls.countP (fun l => ("data: ".toList).isPrefixOf l) = 1
      ∧ format_sse_data (fun _ : Unit => some ("null".toList))
          (⟨"chunk".toList, (), some ("abc".toList), some 5⟩ : SSEEvent Unit)
        = some ((ls.intersperse ('\n' :: [])).flatten) :=
  C7_sse_format (fun _ => some ("null".toList))
    ⟨"chunk".toList, (), some ("abc".toList), some 5⟩ (by decide)

/-- Every chunk emitted inside the accumulation loop carries
`is_word_boundary = current_chunk.endswith(' ') or current_chunk.endswith('\n')`,
evaluated on its own content. -/
lemma chunkLoop_flag (ms : Nat) :
    ∀ (ws : List (List Char)) (first : Bool) (chunks : List StreamChunk)
      (pos : Nat) (cur : List Char),
      (∀ c ∈ chunks, c.is_word_boundary = endsWithSpaceOrNewline c.content) →
      ∀ c ∈ (chunkLoop ms ws first chunks pos cur).1,
        c.is_word_boundary = endsWithSpaceOrNewline c.content := by
  intro ws
  induction ws with
  | nil => intro first chunks pos cur hch c hc; exact hch c hc
  | cons w ws ih =>
    intro first chunks pos cur hch c hc
    have hinv : ∀ d ∈ chunks ++ [mkChunk cur pos (endsWithSpaceOrNewline cur)],
        d.is_word_boundary = endsWithSpaceOrNewline d.content := by
      intro d hd
      rcases List.mem_append.1 hd with h | h
      · exact hch d h
      · rcases List.mem_singleton.1 h with rfl
        rfl
    rw [chunkLoop] at hc
    split at hc <;> split at hc <;>
      first
        | exact ih false _ _ _ hinv c hc
        | exact ih false _ _ _ hch c hc

/-- The loop on the empty text does nothing. -/
lemma chunkCore_nil (ms off : Nat) : chunkCore [] ms off = ([], off, []) := by
  simp [chunkCore, pySplit, chunkLoop]

/-- C9 amended. A chunk emitted because the next word would overflow has
`is_word_boundary` equal to whether its own content ends with a space or
newline — not to whether it ends mid-word in the original text — and the
result is those loop chunks plus, when a non-empty remainder is left, one
final remainder chunk always flagged `true`. -/
theorem C9_amended (text : List Char) (ms off : Nat) :
    (∀ c ∈ (chunkCore text ms off).1, c.is_word_boundary = endsWithSpaceOrNewline c.content)
    ∧ ((chunkCore text ms off).2.2 = [] →
        _create_word_chunks text ms off = (chunkCore text ms off).1)
    ∧ ((chunkCore text ms off).2.2 ≠ [] →
        _create_word_chunks text ms off
          = (chunkCore text ms off).1
            ++ [mkChunk (chunkCore text ms off).2.2 (chunkCore text ms off).2.1 true]) := by
  refine ⟨chunkLoop_flag ms _ true [] off [] (by simp), ?_, ?_⟩
  · intro hcur
    by_cases ht : text = []
    · subst ht
      simp [_create_word_chunks, chunkCore_nil]
    · simp only [_create_word_chunks, if_neg ht]
      rw [show chunkCore text ms off
          = ((chunkCore text ms off).1, (chunkCore text ms off).2.1, (chunkCore text ms off).2.2)
          from rfl]
      simp [hcur]
  · intro hcur
    have ht : text ≠ [] := by
      intro h; subst h
      rw [chunkCore_nil] at hcur
      exact hcur rfl
    simp only [_create_word_chunks, if_neg ht]
    rw [show chunkCore text ms off
        = ((chunkCore text ms off).1, (chunkCore text ms off).2.1, (chunkCore text ms off).2.2)
        from rfl]
    simp [hcur]

/-- C9 witness: the amended theorem applied to `"ab"` with `max_size = 5`,
where the whole text is the final remainder chunk. -/
theorem C9_amended_witness :
    _create_word_chunks ("ab".toList) 5 0
      = (chunkCore ("ab".toList) 5 0).1
        ++ [mkChunk (chunkCore ("ab".toList) 5 0).2.2 (chunkCore ("ab".toList) 5 0).2.1 true] :=
  (C9_amended ("ab".toList) 5 0).2.2 (by decide)

/-- `preAttemptElapsed` at 0 is 0. -/
lemma preAttemptElapsed_zero (dur : Nat → Nat) : preAttemptElapsed dur 0 = 0 := rfl

/-- Recurrence for the cumulative schedule of a permanently failing call:
attempt `k`'s duration plus its `2^k` backoff. -/
lemma preAttemptElapsed_succ (dur : Nat → Nat) (k : Nat) :
    preAttemptElapsed dur (k + 1) = preAttemptElapsed dur k + dur k + 2 ^ k := by
  simp [preAttemptElapsed, List.range_succ, List.foldl_append]

/-- Against a permanently failing provider, the retry loop makes at most
one provider call per remaining loop index, and the sleeps it appends are
exactly `2^a, 2^(a+1), ...` for consecutive attempt indices. -/
lemma invokeLoop_fail_bound (msg : String) (dur : Nat → Nat) (prompt : String)
    (timeout maxR : Nat) :
    ∀ (cnt a elapsed calls : Nat) (sleeps : List Nat),
      (invokeLoop (fun _ _ => .exn msg) dur prompt timeout maxR
          (List.range' a cnt) elapsed calls sleeps).attempts ≤ calls + cnt
      ∧ ∃ j, (invokeLoop (fun _ _ => .exn msg) dur prompt timeout maxR
          (List.range' a cnt) elapsed calls sleeps).sleeps
            = sleeps ++ (List.range' a j).map (fun i => 2 ^ i) := by
  intro cnt
  induction cnt with
  | zero =>
    intro a elapsed calls sleeps
    exact ⟨Nat.le_refl _, 0, by simp [invokeLoop, List.range']⟩
  | succ n ih =>
    intro a elapsed calls sleeps
    have hcons : List.range' a (n + 1) = a :: List.range' (a + 1) n := rfl
    rw [hcons, invokeLoop]
    by_cases hto : elapsed > timeout
    · rw [if_pos hto]
      exact ⟨Nat.le_add_right _ _, 0, by simp [List.range']⟩
    · rw [if_neg hto]
      dsimp only
      by_cases hlast : a = maxR
      · rw [if_pos hlast]
        refine ⟨by dsimp only; omega, 0, by simp [List.range']⟩
      · rw [if_neg hlast]
        obtain ⟨h1, j, h2⟩ := ih (a + 1) (elapsed + dur a + 2 ^ a) (calls + 1) (sleeps ++ [2 ^ a])
        refine ⟨by omega, j + 1, ?_⟩
        rw [h2, List.append_assoc]
        congr 1

/-- Against a permanently failing provider, when every pre-attempt elapsed
check passes the loop runs to exhaustion: one call per attempt index, the
full backoff schedule, and the `max_retries+1` error. -/
lemma invokeLoop_fail_full (msg : String) (dur : Nat → Nat) (prompt : String)
    (timeout maxR : Nat) :
    ∀ (c a calls : Nat) (sleeps : List Nat),
      a + (c + 1) = maxR + 1 →
      (∀ k, a ≤ k → k ≤ maxR → preAttemptElapsed dur k ≤ timeout) →
      invokeLoop (fun _ _ => .exn msg) dur prompt timeout maxR
          (List.range' a (c + 1)) (preAttemptElapsed dur a) calls sleeps
        = ⟨.exhaustedError (maxR + 1) msg, calls + (c + 1),
           sleeps ++ (List.range' a c).map (fun i => 2 ^ i),
           preAttemptElapsed dur maxR + dur maxR⟩ := by
  intro c
  induction c with
  | zero =>
    intro a calls sleeps hcnt H
    have ha : a = maxR := by omega
    subst ha
    have hcons : List.range' a 1 = a :: List.range' (a + 1) 0 := rfl
    rw [hcons, invokeLoop]
    rw [if_neg (Nat.not_lt.mpr (H a (Nat.le_refl a) (Nat.le_refl a)))]
    dsimp only
    rw [if_pos rfl]
    simp [List.range']
  | succ n ih =>
    intro a calls sleeps hcnt H
    have ha : a < maxR := by omega
    have hcons : List.range' a (n + 1 + 1) = a :: List.range' (a + 1) (n + 1) := rfl
    rw [hcons, invokeLoop]
    rw [if_neg (Nat.not_lt.mpr (H a (Nat.le_refl a) (by omega)))]
    dsimp only
    rw [if_neg (Nat.ne_of_lt ha)]
    have hnext : preAttemptElapsed dur a + dur a + 2 ^ a = preAttemptElapsed dur (a + 1) :=
      (preAttemptElapsed_succ dur a).symm
    rw [hnext]
    rw [ih (a + 1) (calls + 1) (sleeps ++ [2 ^ a]) (by omega)
      (fun k hk1 hk2 => H k (by omega) hk2)]
    congr 1
    · omega
    · rw [List.append_assoc]
      congr 1

/-- C2 amended. With a permanently failing provider, `invoke` makes at
most `LLM_MAX_RETRIES + 1` provider attempts, the waits between
consecutive attempts are exactly `2^0, 2^1, ...` (one per completed
non-final attempt), and whenever the cumulative schedule stays within
`LLM_TIMEOUT` at every pre-attempt check, exactly `LLM_MAX_RETRIES + 1`
attempts occur, finishing with the exhaustion error at final elapsed
time `preAttemptElapsed LLM_MAX_RETRIES + dur LLM_MAX_RETRIES` — which
can exceed the timeout, since the check only guards the *start* of an
attempt (see the C2 counterexample). -/
theorem C2_amended (msg : String) (dur : Nat → Nat) (S : Settings) (prompt : String) :
    (invoke (fun _ _ => .exn msg) dur S prompt).attempts ≤ S.LLM_MAX_RETRIES + 1
    ∧ (invoke (fun _ _ => .exn msg) dur S prompt).sleeps
        = (List.range (invoke (fun _ _ => .exn msg) dur S prompt).sleeps.length).map
            (fun i => 2 ^ i)
    ∧ ((∀ k, k ≤ S.LLM_MAX_RETRIES → preAttemptElapsed dur k ≤ S.LLM_TIMEOUT) →
        invoke (fun _ _ => .exn msg) dur S prompt
          = ⟨.exhaustedError (S.LLM_MAX_RETRIES + 1) msg, S.LLM_MAX_RETRIES + 1,
             (List.range S.LLM_MAX_RETRIES).map (fun i => 2 ^ i),
             preAttemptElapsed dur S.LLM_MAX_RETRIES + dur S.LLM_MAX_RETRIES⟩) := by
  have hbase : invoke (fun _ _ => .exn msg) dur S prompt
      = invokeLoop (fun _ _ => .exn msg) dur prompt S.LLM_TIMEOUT S.LLM_MAX_RETRIES
          (List.range' 0 (S.LLM_MAX_RETRIES + 1)) 0 0 [] := by
    rw [show invoke (fun _ _ => .exn msg) dur S prompt
        = invokeLoop (fun _ _ => .exn msg) dur prompt S.LLM_TIMEOUT S.LLM_MAX_RETRIES
            (List.range (S.LLM_MAX_RETRIES + 1)) 0 0 [] from rfl]
    rw [List.range_eq_range']
  obtain ⟨hb, j, hs⟩ := invokeLoop_fail_bound msg dur prompt S.LLM_TIMEOUT
    S.LLM_MAX_RETRIES (S.LLM_MAX_RETRIES + 1) 0 0 0 []
  refine ⟨?_, ?_, ?_⟩
  · rw [hbase]
    simpa using hb
  · rw [hbase, hs]
    simp [List.range_eq_range']
  · intro H
    rw [hbase]
    have h2 := invokeLoop_fail_full msg dur prompt S.LLM_TIMEOUT S.LLM_MAX_RETRIES
      S.LLM_MAX_RETRIES 0 0 [] (by omega) (fun k _ hk2 => H k hk2)
    simp only [Nat.zero_add, List.nil_append, preAttemptElapsed_zero] at h2
    rw [h2, List.range_eq_range']

/-- C2 witness: the amended theorem with `LLM_MAX_RETRIES = 2`,
`LLM_TIMEOUT = 120` and instantaneous failing calls: 3 attempts, sleeps
`[1, 2]`. -/
theorem C2_amended_witness :
    invoke (fun _ _ => ProviderResponse.exn "boom") (fun _ => 0) ⟨2, 120⟩ "p"
      = ⟨.exhaustedError (2 + 1) "boom", 2 + 1,
         (List.range 2).map (fun i => 2 ^ i),
         preAttemptElapsed (fun _ => 0) 2 + (fun _ : Nat => 0) 2⟩ :=
  (C2_amended "boom" (fun _ => 0) ⟨2, 120⟩ "p").2.2 (by decide)